import Mathlib

/-!
Verification development for the tarkov-database/tileserver MBTiles core
(package `mbtiles`): coordinate parsing, tile/grid retrieval, metadata
reading and the startup tileset registry, shallowly embedded in Lean.
Machine integers are modelled as `Nat` with explicit `% 2^w` where Go's
fixed-width semantics matter.
-/

namespace MBTiles

/-! ## Decimal parsing: model of `strconv.ParseUint(s, 10, bits)` -/

/-- Value of an ASCII decimal digit character, `none` for any other char. -/
def digitVal (c : Char) : Option Nat :=
  if 48 ≤ c.toNat ∧ c.toNat ≤ 57 then some (c.toNat - 48) else none

/-- Accumulator loop of decimal parsing: fails on the first non-digit. -/
def parseDigitsAux (acc : Nat) : List Char → Option Nat
  | [] => some acc
  | c :: cs =>
    match digitVal c with
    | none => none
    | some d => parseDigitsAux (acc * 10 + d) cs

/-- Model of Go `strconv.ParseUint(s, 10, bits)`: a non-empty string of
decimal digits whose value fits in `bits` bits; anything else is an error
(`none`). -/
def goParseUint (s : String) (bits : Nat) : Option Nat :=
  if s.data = [] then none
  else
    match parseDigitsAux 0 s.data with
    | none => none
    | some n => if n < 2 ^ bits then some n else none

/-! ### Decimal rendering (for stating round-trip properties) -/

/-- The ASCII character of a decimal digit. -/
def digitChar (d : Nat) : Char := Char.ofNat (48 + d)

/-- Fuel-driven most-significant-first decimal rendering. -/
def natToDecAux : Nat → Nat → List Char
  | 0, _ => []
  | fuel + 1, n =>
    if n < 10 then [digitChar n] else natToDecAux fuel (n / 10) ++ [digitChar (n % 10)]

/-- The decimal string form of a natural number. -/
def natToDec (n : Nat) : String := ⟨natToDecAux (n + 1) n⟩

theorem digitVal_digitChar {d : Nat} (hd : d < 10) : digitVal (digitChar d) = some d := by
  interval_cases d <;> rfl

theorem digitChar_ne_dot {d : Nat} (hd : d < 10) : digitChar d ≠ '.' := by
  interval_cases d <;> decide

theorem parseDigitsAux_append (l₁ l₂ : List Char) (acc : Nat) :
    parseDigitsAux acc (l₁ ++ l₂) =
      (parseDigitsAux acc l₁).bind (fun m => parseDigitsAux m l₂) := by
  induction l₁ generalizing acc with
  | nil => rfl
  | cons c cs ih =>
    simp only [List.cons_append, parseDigitsAux]
    cases digitVal c with
    | none => rfl
    | some d => exact ih _

theorem parseDigitsAux_natToDecAux (fuel : Nat) : ∀ n acc, n < fuel →
    parseDigitsAux acc (natToDecAux fuel n) =
      some (acc * 10 ^ (natToDecAux fuel n).length + n) := by
  induction fuel with
  | zero => intro n acc h; omega
  | succ fuel ih =>
    intro n acc h
    by_cases h10 : n < 10
    · simp only [natToDecAux, if_pos h10, parseDigitsAux, digitVal_digitChar h10,
        List.length_singleton, pow_one]
    · have hlt : n / 10 < n := Nat.div_lt_self (by omega) (by norm_num)
      have hdiv : n / 10 < fuel := by omega
      simp only [natToDecAux, if_neg h10]
      rw [parseDigitsAux_append, ih (n / 10) acc hdiv]
      simp only [Option.some_bind, parseDigitsAux, digitVal_digitChar (Nat.mod_lt n (by omega)),
        List.length_append, List.length_singleton]
      congr 1
      rw [pow_succ, ← mul_assoc]
      generalize acc * 10 ^ (natToDecAux fuel (n / 10)).length = q
      omega

theorem natToDecAux_ne_nil {fuel n : Nat} (h : 0 < fuel) : natToDecAux fuel n ≠ [] := by
  cases fuel with
  | zero => omega
  | succ fuel =>
    by_cases h10 : n < 10 <;> simp [natToDecAux, h10]

theorem dot_not_mem_natToDecAux (fuel n : Nat) : '.' ∉ natToDecAux fuel n := by
  induction fuel generalizing n with
  | zero => simp [natToDecAux]
  | succ fuel ih =>
    by_cases h10 : n < 10
    · simp only [natToDecAux, if_pos h10, List.mem_singleton]
      exact fun h => (digitChar_ne_dot h10) h.symm
    · simp only [natToDecAux, if_neg h10, List.mem_append, List.mem_singleton]
      rintro (h | h)
      · exact ih _ h
      · exact (digitChar_ne_dot (Nat.mod_lt n (by omega))) h.symm

/-- Parsing the decimal form of `n` with a fitting bit width recovers `n`. -/
theorem goParseUint_natToDec {n bits : Nat} (h : n < 2 ^ bits) :
    goParseUint (natToDec n) bits = some n := by
  have hne : natToDecAux (n + 1) n ≠ [] := natToDecAux_ne_nil (Nat.succ_pos n)
  have hparse := parseDigitsAux_natToDecAux (n + 1) n 0 (Nat.lt_succ_self n)
  simp only [zero_mul, zero_add] at hparse
  simp only [goParseUint]
  rw [show (natToDec n).data = natToDecAux (n + 1) n from rfl, if_neg hne, hparse]
  simp [h]

/-! ## TileCoord and `ParseTileCoord` (src/go.mod lines 315–371) -/

/-- `TileCoord`: `Z` is Go `uint8`, `X`/`Y` are Go `uint64` (as `Nat` with
explicit wrap where it matters). -/
structure TileCoord where
  Z : Nat
  X : Nat
  Y : Nat
deriving DecidableEq

/-- The distinct failure causes of `ParseTileCoord`; all wrap
`ErrInvalidTileCoord` in the source, with distinct messages. -/
inductive CoordError
  | zoomParse
  | coordParseX
  | coordOOBX
  | coordParseY
  | coordOOBY
deriving DecidableEq

/-- `2^64`, the wrap modulus of Go `uint64` arithmetic. -/
def U64 : Nat := 2 ^ 64

/-- Go `uint64` subtraction `a - b` (wrapping). -/
def sub64 (a b : Nat) : Nat := (a % U64 + U64 - b % U64) % U64

/-- Strip a trailing filename extension: Go
`if l := strings.LastIndex(s, "."); l >= 0 { s = s[:l] }` — keep everything
strictly before the last dot.  Only called under the guard that a dot
occurs in the list. -/
def beforeLastDot : List Char → List Char
  | [] => []
  | c :: cs => if '.' ∈ cs then c :: beforeLastDot cs else []

/-- The extension-stripping step of `ParseTileCoord` applied to the `y`
parameter. -/
def stripExt (s : String) : String :=
  if '.' ∈ s.data then ⟨beforeLastDot s.data⟩ else s

/-- Model of `ParseTileCoord` (src/go.mod lines 329–371): parse zoom as an
8-bit unsigned, x and y as 64-bit unsigned decimals (y after extension
stripping), bound-check both against `1 << z` computed in `uint64`
arithmetic, then flip y to the bottom-origin scheme with wrapping `uint64`
subtraction. -/
def ParseTileCoord (z x y : String) : Except CoordError TileCoord :=
  match goParseUint z 8 with
  | none => .error .zoomParse
  | some z64 =>
    match goParseUint x 64 with
    | none => .error .coordParseX
    | some xv =>
      if (1 <<< z64) % U64 ≤ xv then .error .coordOOBX
      else
        match goParseUint (stripExt y) 64 with
        | none => .error .coordParseY
        | some yv =>
          if (1 <<< z64) % U64 ≤ yv then .error .coordOOBY
          else .ok { Z := z64, X := xv, Y := sub64 (sub64 ((1 <<< z64) % U64) 1) yv }

theorem stripExt_natToDec (n : Nat) : stripExt (natToDec n) = natToDec n := by
  simp only [stripExt, natToDec]
  exact if_neg (dot_not_mem_natToDecAux (n + 1) n)

/-- C3: for every zoom in [0,22] and column/row in [0, 2^zoom), `ParseTileCoord`
on the decimal string forms succeeds, returns the input column unchanged and the
row converted to bottom-origin as `2^zoom - 1 - row`; the returned column and
row are both `< 2^zoom`. -/
theorem parseTileCoord_roundtrip (z x y : Nat) (hz : z ≤ 22) (hx : x < 2 ^ z)
    (hy : y < 2 ^ z) :
    ParseTileCoord (natToDec z) (natToDec x) (natToDec y) =
      .ok ⟨z, x, 2 ^ z - 1 - y⟩ ∧ x < 2 ^ z ∧ 2 ^ z - 1 - y < 2 ^ z := by
  have hpow : 2 ^ z ≤ 2 ^ 22 := Nat.pow_le_pow_right (by norm_num) hz
  have h64 : 2 ^ z < 2 ^ 64 := lt_of_le_of_lt hpow (by norm_num)
  have hz8 : z < 2 ^ 8 := by
    have h256 : (2 : Nat) ^ 8 = 256 := by norm_num
    omega
  have hx64 : x < 2 ^ 64 := lt_trans hx h64
  have hy64 : y < 2 ^ 64 := lt_trans hy h64
  have hpos : 0 < 2 ^ z := pow_pos (by norm_num) z
  have hshift : (1 <<< z) % U64 = 2 ^ z := by
    rw [Nat.shiftLeft_eq, one_mul, U64, Nat.mod_eq_of_lt h64]
  refine ⟨?_, hx, by omega⟩
  simp only [ParseTileCoord, goParseUint_natToDec hz8, goParseUint_natToDec hx64,
    stripExt_natToDec, goParseUint_natToDec hy64, hshift]
  rw [if_neg (not_le.mpr hx), if_neg (not_le.mpr hy)]
  have hP : 2 ^ z ≤ 4194304 := by
    have h22 : (2 : Nat) ^ 22 = 4194304 := by norm_num
    omega
  have hY : sub64 (sub64 (2 ^ z) 1) y = 2 ^ z - 1 - y := by
    have hU : U64 = 18446744073709551616 := by norm_num [U64]
    simp only [sub64, hU]
    omega
  rw [hY]

/-- Witness for `parseTileCoord_roundtrip` at zoom 2, column 1, row 1. -/
theorem parseTileCoord_roundtrip_witness :
    ParseTileCoord (natToDec 2) (natToDec 1) (natToDec 1) =
      .ok ⟨2, 1, 2 ^ 2 - 1 - 1⟩ ∧ 1 < 2 ^ 2 ∧ 2 ^ 2 - 1 - 1 < 2 ^ 2 :=
  parseTileCoord_roundtrip 2 1 1 (by norm_num) (by norm_num) (by norm_num)

/-- C8: for every zoom in [64,255] and any `uint64` column and row values,
`ParseTileCoord` fails with the out-of-range coordinate error, because the
bound `1 << z` is computed in 64-bit arithmetic and evaluates to 0 for
`z ≥ 64`, so the `x >= bound` check is satisfied by every unsigned value. -/
theorem parseTileCoord_zoom_ge_64_oob (z x y : Nat) (hz1 : 64 ≤ z) (hz2 : z ≤ 255)
    (hx : x < 2 ^ 64) :
    ParseTileCoord (natToDec z) (natToDec x) (natToDec y) = .error .coordOOBX := by
  have hz8 : z < 2 ^ 8 := by
    have h256 : (2 : Nat) ^ 8 = 256 := by norm_num
    omega
  have hshift : (1 <<< z) % U64 = 0 := by
    have hz64 : z = 64 + (z - 64) := by omega
    rw [Nat.shiftLeft_eq, one_mul, U64, hz64, pow_add]
    exact Nat.mul_mod_right _ _
  simp only [ParseTileCoord, goParseUint_natToDec hz8, goParseUint_natToDec hx, hshift]
  rw [if_pos (Nat.zero_le x)]

/-- Witness for `parseTileCoord_zoom_ge_64_oob` at zoom 64, column 0, row 0. -/
theorem parseTileCoord_zoom_ge_64_oob_witness :
    ParseTileCoord (natToDec 64) (natToDec 0) (natToDec 0) = .error .coordOOBX :=
  parseTileCoord_zoom_ge_64_oob 64 0 0 (by norm_num) (by norm_num) (by norm_num)

/-! ## Tile formats (src/go.mod lines 97–170) -/

/-- The closed tile-format enum of the source. -/
inductive TileFormat
  | UNKNOWN
  | PBF
  | PNG
  | JPG
  | WEBP
  | GZIP
  | ZLIB
deriving DecidableEq

/-- `formatStrings` (src/go.mod lines 110–118); the GZIP entry really is the
misspelt "gzib" in the source. -/
def formatStrings : List (TileFormat × String) :=
  [(.UNKNOWN, ""), (.PBF, "pbf"), (.PNG, "png"), (.JPG, "jpg"), (.WEBP, "webp"),
    (.GZIP, "gzib"), (.ZLIB, "zlib")]

/-- `stringToTileFormat`: first table entry whose string matches, else UNKNOWN. -/
def stringToTileFormat (s : String) : TileFormat :=
  match formatStrings.find? (fun p => p.2 == s) with
  | some p => p.1
  | none => .UNKNOWN

/-- The MBTiles layer type enum. -/
inductive LayerType
  | BaseLayer
  | Overlay
deriving DecidableEq

/-- `stringToLayerType`: "overlay" maps to Overlay, everything else defaults to
BaseLayer. -/
def stringToLayerType (s : String) : LayerType :=
  if s == "overlay" then .Overlay else .BaseLayer

/-! ## JSON values and symbolic byte payloads

DEFLATE streams and JSON texts cannot be embedded at the bit level, so byte
payloads are modelled symbolically: a payload is raw bytes, a serialized JSON
document, or a codec-compressed wrapper of another payload.  The codec model
satisfies exactly the contract the source relies on: a reader for codec `c`
succeeds precisely on payloads compressed with `c` and yields the inner
payload. -/

/-- JSON values (numbers restricted to integers, which suffices for every
payload the claims exercise). -/
inductive Json
  | null
  | bool (b : Bool)
  | num (n : Int)
  | str (s : String)
  | arr (elems : List Json)
  | obj (fields : List (String × Json))

/-- A Go `[]byte` payload, modelled symbolically. -/
inductive GoBytes
  | raw (bytes : List Nat)
  | jsonDoc (j : Json)
  | compressed (codec : TileFormat) (payload : GoBytes)

/-- Go-map insertion on an association list: replace the existing binding of
the key, or append a new one. -/
def assocUpd {α : Type} : List (String × α) → String → α → List (String × α)
  | [], k, v => [(k, v)]
  | p :: ps, k, v => if p.1 == k then (k, v) :: ps else p :: assocUpd ps k v

/-- Go-map lookup on an association list. -/
def lookupAssoc {α : Type} (m : List (String × α)) (k : String) : Option α :=
  (m.find? (fun p => p.1 == k)).map (fun p => p.2)

/-- Model of `zlib.NewReader`/`gzip.NewReader` + full read: succeeds exactly on
a payload compressed with the requested codec, yielding the inner payload. -/
def zReaderOpen (codec : TileFormat) (b : GoBytes) : Option GoBytes :=
  match b with
  | .compressed c inner => if c = codec then some inner else none
  | _ => none

/-- Model of `json.Unmarshal`/`json.Decoder.Decode` into a
`map[string]interface{}`: succeeds exactly on a JSON document whose top level
is an object, yielding its fields. -/
def jsonDecodeObjFields : GoBytes → Option (List (String × Json))
  | .jsonDoc (.obj fields) => some fields
  | _ => none

/-! ## Storage relations and Tileset (src/go.mod lines 221–230) -/

/-- Primary key of the tile and grid relations: `(zoom_level, tile_column,
tile_row)` as bound by `GetTile`/`GetGrid` (`tc.Z`, `tc.X`, `tc.Y`). -/
structure TileKey where
  z : Nat
  x : Nat
  y : Nat
deriving DecidableEq

/-- One row of the `grid_data` view: coordinate key plus `(key_name, key_json)`. -/
structure GridDataRow where
  key : TileKey
  keyName : String
  keyJson : GoBytes

/-- The relations of one MBTiles archive that the readers query. -/
structure DB where
  tiles : List (TileKey × GoBytes)
  grids : List (TileKey × GoBytes)
  gridData : List GridDataRow
  metadata : List (String × String)

/-- The `Tileset` structure (src/go.mod lines 222–230); the `database` handle
is modelled by the archive's relations, the modification time as seconds. -/
structure Tileset where
  Filename : String
  Format : TileFormat
  Timestamp : Nat
  UTFGrid : Bool
  UTFGridCompression : TileFormat
  database : DB

/-- The request-time error outcomes of the readers.  `sqlNoRows` is the raw
`database/sql.ErrNoRows` sentinel, distinct from the package's declared
errors `ErrTileNotFound` / `ErrNoUTFGrid` / `ErrTilesetNotFound`. -/
inductive MBError
  | tilesetNotFound
  | tileNotFound
  | noUTFGrid
  | sqlNoRows
  | unknownGridCompression
  | codecHeader
  | jsonDecodeFailure
deriving DecidableEq

/-- The key that `GetTile`/`GetGrid` bind into their queries. -/
def tileKey (tc : TileCoord) : TileKey := ⟨tc.Z, tc.X, tc.Y⟩

/-- `QueryRow(...).Scan(&data)` against a keyed relation: the first matching
row's payload, or `none` (i.e. `sql.ErrNoRows`). -/
def queryRowBytes (rows : List (TileKey × GoBytes)) (k : TileKey) : Option GoBytes :=
  (rows.find? (fun r => r.1 == k)).map (fun r => r.2)

/-! ## GetTile (src/go.mod lines 373–386) -/

/-- `Tileset.GetTile`: point lookup; `sql.ErrNoRows` is mapped to the declared
`ErrTileNotFound`. -/
def getTile (ts : Tileset) (tc : TileCoord) : Except MBError GoBytes :=
  match queryRowBytes ts.database.tiles (tileKey tc) with
  | none => .error .tileNotFound
  | some data => .ok data

/-! ## GetGrid (src/go.mod lines 388–464) -/

/-- The `grid_data` rows fetched for a coordinate, in relation order, projected
to `(key_name, key_json)`. -/
def gridRowsFor (db : DB) (k : TileKey) : List (String × GoBytes) :=
  (db.gridData.filter (fun r => r.key == k)).map (fun r => (r.keyName, r.keyJson))

/-- The `keydata` assembly loop (src/go.mod lines 408–420): each row's JSON
fragment is unmarshalled into a fresh empty map and the error is discarded, so
an invalid fragment leaves the fresh map empty; the row's key is stored
unconditionally. -/
def assembleKeyData (rows : List (String × GoBytes)) : List (String × Json) :=
  rows.foldl
    (fun m r => assocUpd m r.1 (Json.obj ((jsonDecodeObjFields r.2).getD []))) []

/-- `Tileset.GetGrid` (src/go.mod lines 390–464).  Note the tail of the merge
path: the merged, re-compressed document is written into the local buffer
`buf`, `data` is appended to `buf`, and then `data` itself — not
`buf.Bytes()` — is returned. -/
def getGrid (ts : Tileset) (tc : TileCoord) : Except MBError GoBytes :=
  if ts.UTFGrid = false then .error .noUTFGrid
  else
    match queryRowBytes ts.database.grids (tileKey tc) with
    | none => .error .sqlNoRows
    | some data =>
      let keydata := assembleKeyData (gridRowsFor ts.database (tileKey tc))
      if keydata.isEmpty then .ok data
      else
        match
          (match ts.UTFGridCompression with
            | .ZLIB => match zReaderOpen .ZLIB data with
              | some inner => Except.ok inner
              | none => Except.error MBError.codecHeader
            | .GZIP => match zReaderOpen .GZIP data with
              | some inner => Except.ok inner
              | none => Except.error MBError.codecHeader
            | _ => Except.error MBError.unknownGridCompression) with
        | .error e => .error e
        | .ok inner =>
          match jsonDecodeObjFields inner with
          | none => .error .jsonDecodeFailure
          | some utfjson =>
            let merged := assocUpd utfjson "data" (Json.obj keydata)
            let buf := GoBytes.compressed ts.UTFGridCompression (.jsonDoc (.obj merged))
            let _unusedBuf := buf
            .ok data

/-! ## Registry construction (src/go.mod lines 49–86) -/

/-- `strings.TrimSuffix`. -/
def trimSuffixStr (s sfx : String) : String :=
  if sfx.data.isSuffixOf s.data then ⟨s.data.take (s.data.length - sfx.data.length)⟩
  else s

/-- Go runtime panic kinds reachable in this package. -/
inductive GoPanic
  | nilDeref
  | indexOutOfRange
deriving DecidableEq

/-- One step of the `LoadTilesets` collector loop (src/go.mod lines 79–81):
every loader, including a failed one, sends its (possibly nil) `*Tileset` on
the channel, and the collector unconditionally evaluates `ts.Filename` — a nil
result is a nil-pointer dereference panic. -/
def registerStep (st : Except GoPanic (List (String × Tileset))) (r : Option Tileset) :
    Except GoPanic (List (String × Tileset)) :=
  match st, r with
  | .error e, _ => .error e
  | .ok _, none => .error .nilDeref
  | .ok reg, some ts => .ok (assocUpd reg (trimSuffixStr ts.Filename ".mbtiles") ts)

/-- The `LoadTilesets` collector over the per-archive load results (one
`Option Tileset` per `.mbtiles` file; `none` is a failed `NewTileset`). -/
def registerLoaded (results : List (Option Tileset)) :
    Except GoPanic (List (String × Tileset)) :=
  results.foldl registerStep (.ok [])

theorem registerStep_error (e : GoPanic) (l : List (Option Tileset)) :
    l.foldl registerStep (.error e) = .error e := by
  induction l with
  | nil => rfl
  | cons r rs ih =>
    rw [List.foldl_cons]
    exact ih

theorem registerLoaded_aux (rs : List (Option Tileset)) :
    ∀ reg, none ∈ rs → rs.foldl registerStep (.ok reg) = .error .nilDeref := by
  induction rs with
  | nil => intro reg h; simp at h
  | cons r rest ih =>
    intro reg h
    cases r with
    | none =>
      rw [List.foldl_cons]
      exact registerStep_error _ _
    | some ts =>
      rw [List.foldl_cons]
      have hmem : (none : Option Tileset) ∈ rest := by
        rcases List.mem_cons.mp h with h1 | h1
        · exact Option.noConfusion h1
        · exact h1
      exact ih _ hmem

/-- C2 (refuted by the code): whenever any single archive fails to load, the
collector loop dereferences the nil `Tileset` while registering it, so the
whole load panics — no archive is registered and the process aborts, contrary
to the claim that the failed archive alone is excluded. -/
theorem registerLoaded_panics_on_failed_load (results : List (Option Tileset))
    (h : none ∈ results) : registerLoaded results = .error .nilDeref :=
  registerLoaded_aux results [] h

/-- A well-formed tileset whose load succeeded. -/
def tsGood : Tileset :=
  { Filename := "good.mbtiles", Format := .PBF, Timestamp := 0, UTFGrid := false,
    UTFGridCompression := .UNKNOWN,
    database := { tiles := [], grids := [], gridData := [], metadata := [] } }

/-- Witness for `registerLoaded_panics_on_failed_load`: one good archive plus
one failed load panic the collector, and the good archive is not registered. -/
theorem registerLoaded_panics_on_failed_load_witness :
    registerLoaded [some tsGood, none] = .error .nilDeref :=
  registerLoaded_panics_on_failed_load [some tsGood, none] (by simp)

/-! ## Claims about GetTile and GetGrid -/

/-- C6: `GetTile` on a coordinate absent from the tile relation returns the
named `ErrTileNotFound`, never a successful (e.g. zero-length) payload. -/
theorem getTile_absent_not_found (ts : Tileset) (tc : TileCoord)
    (h : ∀ r ∈ ts.database.tiles, r.1 ≠ tileKey tc) :
    getTile ts tc = .error .tileNotFound ∧ ∀ b, getTile ts tc ≠ .ok b := by
  have hfind : ts.database.tiles.find? (fun r => r.1 == tileKey tc) = none := by
    rw [List.find?_eq_none]
    intro x hx
    simpa using h x hx
  have hf : queryRowBytes ts.database.tiles (tileKey tc) = none := by
    simp only [queryRowBytes, hfind, Option.map_none']
  exact ⟨by simp [getTile, hf], fun b => by simp [getTile, hf]⟩

/-- An interactivity-capable tileset with empty relations. -/
def tsEmptyUTF : Tileset :=
  { Filename := "utf.mbtiles", Format := .PBF, Timestamp := 0, UTFGrid := true,
    UTFGridCompression := .ZLIB,
    database := { tiles := [], grids := [], gridData := [], metadata := [] } }

/-- Witness for `getTile_absent_not_found` on an empty tile relation. -/
theorem getTile_absent_not_found_witness :
    getTile tsEmptyUTF ⟨0, 0, 0⟩ = .error .tileNotFound ∧
      ∀ b, getTile tsEmptyUTF ⟨0, 0, 0⟩ ≠ .ok b :=
  getTile_absent_not_found tsEmptyUTF ⟨0, 0, 0⟩ (by simp [tsEmptyUTF])

/-- C5 (refuted by the code): `GetGrid` on an interactivity-capable tileset
whose grid row is absent returns the raw `sql.ErrNoRows` — which is none of
the package's declared not-found errors, so the HTTP layer's `errors.Is`
switch falls through to the opaque 500 branch instead of 204. -/
theorem getGrid_missing_grid_row_raw_sql_error :
    getGrid tsEmptyUTF ⟨0, 0, 0⟩ = .error .sqlNoRows ∧
      MBError.sqlNoRows ≠ .tileNotFound ∧ MBError.sqlNoRows ≠ .noUTFGrid ∧
      MBError.sqlNoRows ≠ .tilesetNotFound :=
  ⟨rfl, by decide, by decide, by decide⟩

/-- C7: with the grid row present and zero auxiliary rows, `GetGrid` returns
the stored grid payload byte-for-byte, with no decompression round trip. -/
theorem getGrid_zero_aux_rows_identity (ts : Tileset) (tc : TileCoord) (data : GoBytes)
    (hu : ts.UTFGrid = true)
    (hg : queryRowBytes ts.database.grids (tileKey tc) = some data)
    (hr : gridRowsFor ts.database (tileKey tc) = []) :
    getGrid ts tc = .ok data := by
  simp [getGrid, hu, hg, hr, assembleKeyData]

/-- A tileset with one grid row and no auxiliary rows at its coordinate. -/
def tsPlainGrid : Tileset :=
  { Filename := "plain.mbtiles", Format := .PBF, Timestamp := 0, UTFGrid := true,
    UTFGridCompression := .GZIP,
    database := { tiles := [], grids := [(⟨3, 2, 5⟩, .raw [31, 139, 7])],
                  gridData := [], metadata := [] } }

/-- Witness for `getGrid_zero_aux_rows_identity`. -/
theorem getGrid_zero_aux_rows_identity_witness :
    getGrid tsPlainGrid ⟨3, 2, 5⟩ = .ok (.raw [31, 139, 7]) :=
  getGrid_zero_aux_rows_identity tsPlainGrid ⟨3, 2, 5⟩ (.raw [31, 139, 7]) rfl rfl rfl

/-- The original (unmerged) grid document of the C1 scenario. -/
def origGridFields : List (String × Json) := [("grid", Json.arr [Json.str "  "])]

/-- The stored, zlib-compressed grid payload of the C1 scenario. -/
def storedGridC1 : GoBytes := .compressed .ZLIB (.jsonDoc (.obj origGridFields))

/-- The parsed JSON fragment of the single auxiliary row of the C1 scenario. -/
def fragC1 : Json := .obj [("name", .str "Dorms")]

/-- An interactivity tileset with one grid row and one valid auxiliary row. -/
def tsC1 : Tileset :=
  { Filename := "c1.mbtiles", Format := .PBF, Timestamp := 0, UTFGrid := true,
    UTFGridCompression := .ZLIB,
    database := { tiles := [], grids := [(⟨2, 1, 1⟩, storedGridC1)],
                  gridData := [{ key := ⟨2, 1, 1⟩, keyName := "k1",
                                 keyJson := .jsonDoc fragC1 }],
                  metadata := [] } }

/-- C1 (refuted by the code): with one auxiliary row, the merge path runs to
completion, but `GetGrid` returns the original stored `data` (the merged,
re-compressed document only ever reaches the discarded local buffer).  The
bytes returned decompress to the original document, which contains neither
the designated "data" field nor the supplied key. -/
theorem getGrid_returns_unmerged_bytes :
    getGrid tsC1 ⟨2, 1, 1⟩ = .ok storedGridC1 ∧
      assembleKeyData (gridRowsFor tsC1.database ⟨2, 1, 1⟩) = [("k1", fragC1)] ∧
      zReaderOpen .ZLIB storedGridC1 = some (.jsonDoc (.obj origGridFields)) ∧
      lookupAssoc origGridFields "data" = none ∧
      lookupAssoc origGridFields "k1" = none :=
  ⟨rfl, rfl, rfl, rfl, rfl⟩

theorem lookupAssoc_assocUpd_self {α : Type} (m : List (String × α)) (k : String) (v : α) :
    lookupAssoc (assocUpd m k v) k = some v := by
  induction m with
  | nil => simp [assocUpd, lookupAssoc]
  | cons p ps ih =>
    cases hbk : p.1 == k
    · simpa [assocUpd, lookupAssoc, hbk] using ih
    · simp [assocUpd, lookupAssoc, hbk]

/-- The stored grid payload of the C10 scenario. -/
def storedGridC10 : GoBytes := .compressed .GZIP (.jsonDoc (.obj [("grid", Json.arr [])]))

/-- An interactivity tileset whose single auxiliary row carries a key_json
value that is not valid JSON. -/
def tsC10 : Tileset :=
  { Filename := "c10.mbtiles", Format := .PBF, Timestamp := 0, UTFGrid := true,
    UTFGridCompression := .GZIP,
    database := { tiles := [], grids := [(⟨1, 0, 0⟩, storedGridC10)],
                  gridData := [{ key := ⟨1, 0, 0⟩, keyName := "bad",
                                 keyJson := .raw [110, 111] }],
                  metadata := [] } }

/-- C10: a grid_data row whose JSON fragment fails to unmarshal does not fail
`GetGrid`: the decode error is discarded and the row's key is mapped to the
empty object in the assembled key mapping; `GetGrid` still succeeds. -/
theorem getGrid_invalid_fragment_empty_object :
    (∀ (pre : List (String × GoBytes)) (k : String) (v : GoBytes),
        jsonDecodeObjFields v = none →
        lookupAssoc (assembleKeyData (pre ++ [(k, v)])) k = some (Json.obj [])) ∧
      getGrid tsC10 ⟨1, 0, 0⟩ = .ok storedGridC10 := by
  constructor
  · intro pre k v hv
    unfold assembleKeyData
    rw [List.foldl_append]
    simp only [List.foldl_cons, List.foldl_nil, hv, Option.getD_none]
    exact lookupAssoc_assocUpd_self _ _ _
  · rfl

/-- Witness for `getGrid_invalid_fragment_empty_object` with one earlier valid
row and an invalid last fragment. -/
theorem getGrid_invalid_fragment_empty_object_witness :
    lookupAssoc
        (assembleKeyData ([("ok", GoBytes.jsonDoc (Json.obj []))] ++
          [("bad", GoBytes.raw [110, 111])])) "bad" = some (Json.obj []) ∧
      getGrid tsC10 ⟨1, 0, 0⟩ = .ok storedGridC10 :=
  ⟨getGrid_invalid_fragment_empty_object.1 [("ok", GoBytes.jsonDoc (Json.obj []))]
      "bad" (GoBytes.raw [110, 111]) rfl,
    getGrid_invalid_fragment_empty_object.2⟩

/-! ## Metadata reading (src/go.mod lines 466–625) -/

/-- ASCII decimal digit test. -/
def isDigitCh (c : Char) : Bool := decide (48 ≤ c.toNat) && decide (c.toNat ≤ 57)

/-- ASCII whitespace test (the whitespace occurring in metadata values). -/
def isSpaceCh (c : Char) : Bool := c == ' ' || c == '\t' || c == '\n' || c == '\r'

/-- `strings.TrimSpace`. -/
def trimSpace (s : String) : String :=
  ⟨((s.data.dropWhile isSpaceCh).reverse.dropWhile isSpaceCh).reverse⟩

/-- `strings.Split(s, sep)` for a one-character separator; always yields at
least one (possibly empty) part. -/
def splitCharList (sep : Char) : List Char → List (List Char)
  | [] => [[]]
  | c :: cs =>
    match splitCharList sep cs with
    | [] => [[]]
    | p :: ps => if c == sep then [] :: p :: ps else (c :: p) :: ps

/-- `strings.Split(s, ",")`. -/
def splitComma (s : String) : List String := (splitCharList ',' s.data).map (fun l => ⟨l⟩)

/-- Model of `strconv.ParseFloat(s, 64)` on the plain decimal subset
`[+-]digits[.digits]` that archive `bounds`/`center` values use; exponents,
hex floats and inf/nan are not modelled — no claim depends on them.  The
value is kept as an exact rational; Go's float64 rounding is irrelevant to
every claim (only parse success/failure and array indexing matter). -/
def goParseFloat (s : String) : Option Rat :=
  match s.data with
  | [] => none
  | cs0 =>
    let signed : Bool × List Char :=
      match cs0 with
      | '+' :: rest => (false, rest)
      | '-' :: rest => (true, rest)
      | rest => (false, rest)
    let cs := signed.2
    let ip := cs.takeWhile isDigitCh
    let rest := cs.drop ip.length
    match rest with
    | [] =>
      if ip.isEmpty then none
      else (parseDigitsAux 0 ip).map (fun n => if signed.1 then -(n : Rat) else (n : Rat))
    | '.' :: fr =>
      let fp := fr.takeWhile isDigitCh
      if fr.drop fp.length ≠ [] then none
      else if ip.isEmpty && fp.isEmpty then none
      else
        match parseDigitsAux 0 ip, parseDigitsAux 0 fp with
        | some i, some f =>
          let v : Rat := (i : Rat) + (f : Rat) / ((10 : Rat) ^ fp.length)
          some (if signed.1 then -v else v)
        | _, _ => none
    | _ => none

/-- Model of `strconv.Atoi` (64-bit `int`). -/
def goAtoi (s : String) : Option Int :=
  match s.data with
  | [] => none
  | cs0 =>
    let signed : Bool × List Char :=
      match cs0 with
      | '+' :: rest => (false, rest)
      | '-' :: rest => (true, rest)
      | rest => (false, rest)
    if signed.2.isEmpty then none
    else
      match parseDigitsAux 0 signed.2 with
      | none => none
      | some n =>
        let v : Int := if signed.1 then -(n : Int) else (n : Int)
        if -(2 ^ 63) ≤ v ∧ v < 2 ^ 63 then some v else none

/-- One iteration of the `stringToBounds`/`stringToCenter` loop:
`bounds[i], err = strconv.ParseFloat(strings.TrimSpace(v), 64)`.  The indexed
write panics for an index past the fixed array size; `err` is overwritten on
every iteration (a failed `ParseFloat` yields 0). -/
def boundsStep (size : Nat) (st : Except GoPanic (List Rat × Bool)) (iv : Nat × String) :
    Except GoPanic (List Rat × Bool) :=
  match st with
  | .error e => .error e
  | .ok st0 =>
    if iv.1 < size then
      .ok (st0.1.set iv.1 ((goParseFloat (trimSpace iv.2)).getD 0),
        (goParseFloat (trimSpace iv.2)).isNone)
    else .error .indexOutOfRange

/-- `stringToBounds` (src/go.mod lines 611–617): the result is the `[4]float64`
array plus the `err` named return as left by the LAST loop iteration. -/
def stringToBounds (str : String) : Except GoPanic (List Rat × Bool) :=
  ((splitComma str).enum).foldl (boundsStep 4) (.ok ([0, 0, 0, 0], false))

/-- `stringToCenter` (src/go.mod lines 619–625): same loop over a `[3]float64`. -/
def stringToCenter (str : String) : Except GoPanic (List Rat × Bool) :=
  ((splitComma str).enum).foldl (boundsStep 3) (.ok ([0, 0, 0], false))

/-- Whitespace skipping for the JSON text parser. -/
def skipWs (cs : List Char) : List Char :=
  cs.dropWhile (fun c => c == ' ' || c == '\n' || c == '\t' || c == '\r')

mutual

/-- Model of `json.Unmarshal` for the metadata `json` field, on the JSON
subset with integer numbers and escape-free strings (fuel-bounded recursive
descent); no claim exercises this field. -/
def parseJsonVal : Nat → List Char → Option (Json × List Char)
  | 0, _ => none
  | fuel + 1, cs =>
    match skipWs cs with
    | 'n' :: 'u' :: 'l' :: 'l' :: rest => some (.null, rest)
    | 't' :: 'r' :: 'u' :: 'e' :: rest => some (.bool true, rest)
    | 'f' :: 'a' :: 'l' :: 's' :: 'e' :: rest => some (.bool false, rest)
    | '"' :: rest =>
      (match rest.drop (rest.takeWhile (fun c => !(c == '"'))).length with
        | '"' :: rest2 => some (.str ⟨rest.takeWhile (fun c => !(c == '"'))⟩, rest2)
        | _ => none)
    | '[' :: rest =>
      (match skipWs rest with
        | ']' :: rest2 => some (.arr [], rest2)
        | rest2 => (parseJsonElems fuel rest2).map (fun p => (Json.arr p.1, p.2)))
    | '{' :: rest =>
      (match skipWs rest with
        | '}' :: rest2 => some (.obj [], rest2)
        | rest2 => (parseJsonFields fuel rest2).map (fun p => (Json.obj p.1, p.2)))
    | '-' :: rest =>
      if (rest.takeWhile isDigitCh).isEmpty then none
      else
        (parseDigitsAux 0 (rest.takeWhile isDigitCh)).map
          (fun n => (Json.num (-(n : Int)), rest.drop (rest.takeWhile isDigitCh).length))
    | c :: rest =>
      if isDigitCh c then
        (parseDigitsAux 0 ((c :: rest).takeWhile isDigitCh)).map
          (fun n => (Json.num (n : Int),
            (c :: rest).drop ((c :: rest).takeWhile isDigitCh).length))
      else none
    | [] => none

/-- Comma-separated JSON array elements up to the closing bracket. -/
def parseJsonElems : Nat → List Char → Option (List Json × List Char)
  | 0, _ => none
  | fuel + 1, cs =>
    match parseJsonVal fuel cs with
    | none => none
    | some (v, rest) =>
      match skipWs rest with
      | ',' :: rest2 => (parseJsonElems fuel rest2).map (fun p => (v :: p.1, p.2))
      | ']' :: rest2 => some ([v], rest2)
      | _ => none

/-- Comma-separated JSON object members up to the closing brace. -/
def parseJsonFields : Nat → List Char → Option (List (String × Json) × List Char)
  | 0, _ => none
  | fuel + 1, cs =>
    match skipWs cs with
    | '"' :: rest =>
      (match rest.drop (rest.takeWhile (fun c => !(c == '"'))).length with
        | '"' :: rest2 =>
          (match skipWs rest2 with
            | ':' :: rest3 =>
              (match parseJsonVal fuel rest3 with
                | none => none
                | some (v, rest4) =>
                  match skipWs rest4 with
                  | ',' :: rest5 =>
                    (parseJsonFields fuel rest5).map
                      (fun p => ((⟨rest.takeWhile (fun c => !(c == '"'))⟩, v) :: p.1, p.2))
                  | '}' :: rest5 =>
                    some ([(⟨rest.takeWhile (fun c => !(c == '"'))⟩, v)], rest5)
                  | _ => none)
            | _ => none)
        | _ => none)
    | _ => none

end

/-- Full-document JSON parse of a metadata value; trailing non-whitespace is
an error. -/
def parseJsonText (s : String) : Option Json :=
  match parseJsonVal (2 * s.data.length + 2) s.data with
  | some (v, rest) => if skipWs rest = [] then some v else none
  | none => none

/-- The `Metadata` structure (src/go.mod lines 543–555) with Go zero values;
bounds and center as exact rationals, the layer-descriptor block as the raw
parsed JSON document. -/
structure Metadata where
  Name : String := ""
  Description : String := ""
  Attribution : String := ""
  Version : String := ""
  Format : TileFormat := .UNKNOWN
  MinZoom : Int := 0
  MaxZoom : Int := 0
  Center : List Rat := [0, 0, 0]
  Bounds : List Rat := [0, 0, 0, 0]
  Type' : LayerType := .BaseLayer
  LayerData : Option Json := none

/-- How a `GetMetadata` call can fail: a runtime panic, a parse error returned
to the caller, or a storage-level scan failure. -/
inductive MetaErr
  | panicked (p : GoPanic)
  | parseFailure
  | storageFailure
deriving DecidableEq

/-- One iteration of the `GetMetadata` row loop (src/go.mod lines 478–511):
the key switch, followed by the shared `if err != nil` check. -/
def metaStep (st : Except MetaErr Metadata) (row : String × String) :
    Except MetaErr Metadata :=
  match st with
  | .error e => .error e
  | .ok md =>
    match row.1 with
    | "name" => .ok { md with Name := row.2 }
    | "description" => .ok { md with Description := row.2 }
    | "attribution" => .ok { md with Attribution := row.2 }
    | "version" => .ok { md with Version := row.2 }
    | "format" => .ok { md with Format := stringToTileFormat row.2 }
    | "minzoom" =>
      match goAtoi row.2 with
      | none => .error .parseFailure
      | some v => .ok { md with MinZoom := v }
    | "maxzoom" =>
      match goAtoi row.2 with
      | none => .error .parseFailure
      | some v => .ok { md with MaxZoom := v }
    | "center" =>
      match stringToCenter row.2 with
      | .error p => .error (.panicked p)
      | .ok r => if r.2 then .error .parseFailure else .ok { md with Center := r.1 }
    | "bounds" =>
      match stringToBounds row.2 with
      | .error p => .error (.panicked p)
      | .ok r => if r.2 then .error .parseFailure else .ok { md with Bounds := r.1 }
    | "type" => .ok { md with Type' := stringToLayerType row.2 }
    | "json" =>
      match parseJsonText row.2 with
      | none => .error .parseFailure
      | some j => .ok { md with LayerData := some j }
    | _ => .ok md

/-- `SELECT min(zoom_level), max(zoom_level) FROM tiles`: over an empty
relation the aggregates are NULL and the scan into strings fails. -/
def minMaxZoom (tiles : List (TileKey × GoBytes)) : Option (Int × Int) :=
  match tiles.map (fun r => (r.1.z : Int)) with
  | [] => none
  | z :: zs => some (zs.foldl min z, zs.foldl max z)

/-- `Tileset.GetMetadata` (src/go.mod lines 468–531): iterate the non-empty
metadata rows through the key switch, then, if `maxzoom` stayed
indistinguishable from the zero default, derive the zoom range by scanning the
tile relation. -/
def getMetadata (ts : Tileset) : Except MetaErr Metadata :=
  let rows := ts.database.metadata.filter (fun r => r.2 != "")
  match rows.foldl metaStep (.ok {}) with
  | .error e => .error e
  | .ok md =>
    if md.MaxZoom = 0 then
      match minMaxZoom ts.database.tiles with
      | none => .error .storageFailure
      | some p => .ok { md with MinZoom := p.1, MaxZoom := p.2 }
    else .ok md

theorem boundsStep_fold_error (size : Nat) (e : GoPanic) (l : List (Nat × String)) :
    l.foldl (boundsStep size) (.error e) = .error e := by
  induction l with
  | nil => rfl
  | cons p ps ih =>
    rw [List.foldl_cons]
    exact ih

theorem enumFrom_append {α : Type} (l1 l2 : List α) :
    ∀ n, List.enumFrom n (l1 ++ l2) =
      List.enumFrom n l1 ++ List.enumFrom (n + l1.length) l2 := by
  induction l1 with
  | nil => intro n; simp
  | cons a l ih =>
    intro n
    simp only [List.cons_append, List.enumFrom, List.length_cons, List.append_eq]
    rw [ih (n + 1), show n + 1 + l.length = n + (l.length + 1) from by omega]

theorem boundsStep_fold_ok (size : Nat) :
    ∀ (l : List String) (n : Nat) (st : List Rat × Bool), n + l.length ≤ size →
      ∃ st2, (List.enumFrom n l).foldl (boundsStep size) (.ok st) = .ok st2 := by
  intro l
  induction l with
  | nil => intro n st h; exact ⟨st, rfl⟩
  | cons v vs ih =>
    intro n st h
    have hrw : List.enumFrom n (v :: vs) = (n, v) :: List.enumFrom (n + 1) vs := rfl
    have hn : n < size := by
      simp only [List.length_cons] at h
      omega
    have hstep : boundsStep size (.ok st) (n, v) =
        .ok (st.1.set n ((goParseFloat (trimSpace v)).getD 0),
          (goParseFloat (trimSpace v)).isNone) := by
      simp [boundsStep, hn]
    rw [hrw, List.foldl_cons, hstep]
    exact ih (n + 1) _ (by simp only [List.length_cons] at h; omega)

theorem boundsStep_fold_panic (size : Nat) (l : List String) (n : Nat)
    (st : List Rat × Bool) (hn : size ≤ n) (hl : l ≠ []) :
    (List.enumFrom n l).foldl (boundsStep size) (.ok st) = .error .indexOutOfRange := by
  cases l with
  | nil => exact absurd rfl hl
  | cons v vs =>
    have hrw : List.enumFrom n (v :: vs) = (n, v) :: List.enumFrom (n + 1) vs := rfl
    have hstep : boundsStep size (.ok st) (n, v) = .error .indexOutOfRange := by
      simp [boundsStep, Nat.not_lt.mpr hn]
    rw [hrw, List.foldl_cons, hstep]
    exact boundsStep_fold_error size _ _

theorem boundsFold_overflow (size : Nat) (init : List Rat × Bool) (parts : List String)
    (h : size < parts.length) :
    (parts.enum).foldl (boundsStep size) (.ok init) = .error .indexOutOfRange := by
  have hparts : parts = parts.take size ++ parts.drop size :=
    (List.take_append_drop size parts).symm
  have hlen : (parts.take size).length = size := by
    rw [List.length_take]
    omega
  have hdrop : parts.drop size ≠ [] := by
    intro hd
    have hlen2 := congrArg List.length hd
    rw [List.length_drop, List.length_nil] at hlen2
    omega
  rw [show parts.enum = List.enumFrom 0 parts from rfl]
  conv_lhs => rw [hparts]
  rw [enumFrom_append, List.foldl_append]
  obtain ⟨st2, hst2⟩ := boundsStep_fold_ok size (parts.take size) 0 init (by omega)
  rw [hst2]
  exact boundsStep_fold_panic size (parts.drop size) (0 + (parts.take size).length) st2
    (by omega) hdrop

/-- A tileset whose `bounds` metadata value has five comma-separated
components. -/
def tsC9 : Tileset :=
  { Filename := "c9.mbtiles", Format := .PBF, Timestamp := 0, UTFGrid := false,
    UTFGridCompression := .UNKNOWN,
    database := { tiles := [], grids := [], gridData := [],
                  metadata := [("bounds", "1,2,3,4,5")] } }

/-- C9: a recognized `bounds` (resp. `center`) value with more than 4
(resp. 3) comma-separated components makes the indexed write into the
fixed-size result array panic inside `stringToBounds`/`stringToCenter`, and
`GetMetadata` propagates the panic instead of returning a storage error. -/
theorem stringToBounds_overflow_panics :
    (∀ s : String, 4 < (splitComma s).length →
        stringToBounds s = .error .indexOutOfRange) ∧
      (∀ s : String, 3 < (splitComma s).length →
        stringToCenter s = .error .indexOutOfRange) ∧
      getMetadata tsC9 = .error (.panicked .indexOutOfRange) := by
  refine ⟨fun s h => boundsFold_overflow 4 ([0, 0, 0, 0], false) (splitComma s) h,
    fun s h => boundsFold_overflow 3 ([0, 0, 0], false) (splitComma s) h, ?_⟩
  rfl

/-- Witness for `stringToBounds_overflow_panics`: five bounds components and
four center components. -/
theorem stringToBounds_overflow_panics_witness :
    stringToBounds "1,2,3,4,5" = .error .indexOutOfRange ∧
      stringToCenter "0.5,12.3,4,7" = .error .indexOutOfRange :=
  ⟨stringToBounds_overflow_panics.1 "1,2,3,4,5" (by decide),
    stringToBounds_overflow_panics.2.1 "0.5,12.3,4,7" (by decide)⟩

/-- A tileset whose `bounds` value has a malformed first component and three
well-formed ones (plus an explicit non-zero `maxzoom`). -/
def tsC4 : Tileset :=
  { Filename := "c4.mbtiles", Format := .PBF, Timestamp := 0, UTFGrid := false,
    UTFGridCompression := .UNKNOWN,
    database := { tiles := [], grids := [], gridData := [],
                  metadata := [("bounds", "x,1,2,3"), ("maxzoom", "7")] } }

/-- C4 (refuted by the code): a malformed non-final component of a recognized
`bounds` value does NOT fail `GetMetadata`: the loop in `stringToBounds`
overwrites `err` on every iteration, so the error from component "x" is
discarded and `GetMetadata` succeeds with the partial bounds `[0, 1, 2, 3]`. -/
theorem getMetadata_swallows_bounds_component_error :
    goParseFloat (trimSpace "x") = none ∧
      (getMetadata tsC4).toOption.map Metadata.Bounds = some [0, 1, 2, 3] ∧
      (getMetadata tsC4).toOption.map Metadata.MaxZoom = some 7 :=
  ⟨rfl, by decide, by decide⟩

end MBTiles
